import Mathlib

/-
Verification of the swish video-sharing backend functions.

The embedding models the two backend modules the claims concern:

* the video content service (getVideo, promisePiper, uploadVideo, deleteVideo),
  whose source talks to a document store (firestore), an object store
  (storage bucket "meteor-videos") and the mux transcoding API; and
* the callable endpoint getChannels, which talks to the auth service and the
  "channels" collection of the document store.

External services are modelled as explicit state: the document store is an
association list from full document paths to document data, the object store
an association list from object paths to stored objects, and the set of
remote transcoder assets a list of asset ids.  Each operation returns its
result, the successor state, and the trace of external calls it issued, so
that ordering claims become statements about the trace.
-/

deriving instance DecidableEq for Except

namespace Swish

/-- Association-list lookup by string key, modelling a keyed document or
object store. -/
def alookup {α : Type} : List (String × α) → String → Option α
  | [], _ => none
  | (k, v) :: rest, key => if k == key then some v else alookup rest key

/-- Data held in a firestore document under content/, as read by getVideo
(fields assetID and playbackID, source lines 22 and 26-27). -/
structure ContentData where
  assetID : String
  playbackID : String
deriving Repr, DecidableEq

/-- The record built and returned by getVideo (object literal at source
lines 24-28: fields id, assetID, playbackID). -/
structure IVideoContent where
  id : String
  assetID : String
  playbackID : String
deriving Repr, DecidableEq

/-- Keys of the object literal returned by getVideo, in source order
(lines 24-28). -/
def getVideoReturnKeys : List String := ["id", "assetID", "playbackID"]

/-- Modelled from the spec: the record returned by VideoDataService.getVideo,
whose source is not under src/ (only the import and the call site in
uploadVideo are).  The spec data model gives a video an author field
(video.author, read at source line 64). -/
structure IVideo where
  author : String
deriving Repr, DecidableEq

/-- Authentication data of the invocation context (context.auth.userID). -/
structure AuthInfo where
  userID : String
deriving Repr, DecidableEq

/-- The IServiceInvocationContext passed to each service function. -/
structure IServiceInvocationContext where
  auth : AuthInfo
deriving Repr, DecidableEq

/-- Errors thrown by the content service (from ../../errors). -/
inductive SwishError
  | resourceNotFound (resourceType : String) (resourceName : String) (id : String)
  | authorizationError (resourceType : String) (action : String)
deriving Repr, DecidableEq

/-- An object in the storage bucket: its content type metadata, its bytes,
and whether makePublic has been called on it. -/
structure StorageObject where
  contentType : String
  contents : List Nat
  isPublic : Bool
deriving Repr, DecidableEq

/-- The state touched by the content service: firestore documents (keyed by
full path), the video records served by VideoDataService (modelled from the
spec), the storage bucket meteor-videos (keyed by object path), and the
assets held by the mux transcoding service (by asset id). -/
structure World where
  content : List (String × ContentData)
  videos : List (String × IVideo)
  storage : List (String × StorageObject)
  muxAssets : List String
deriving Repr, DecidableEq

/-- One external call issued by a content-service operation. -/
inductive Effect
  | firestoreGet (path : String)
  | videoServiceGet (id : String)
  | storageWrite (path : String) (mime : String)
  | makePublic (path : String)
  | transcoderPost (input : String) (passthrough : String)
  | muxDelete (assetID : String)
  | firestoreDelete (path : String)
deriving Repr, DecidableEq

/-- Whether an effect mutates state (everything except the two reads). -/
def Effect.isMutation : Effect → Bool
  | .firestoreGet _ => false
  | .videoServiceGet _ => false
  | .storageWrite _ _ => true
  | .makePublic _ => true
  | .transcoderPost _ _ => true
  | .muxDelete _ => true
  | .firestoreDelete _ => true

/-- getVideo (source lines 13-29): fetch the document at content/${id}; if it
does not exist throw ResourceNotFoundError, otherwise return the record
with fields id, assetID, playbackID.  A read: the state is unchanged, so
only the result and the trace are returned. -/
def getVideo (w : World) (id : String) :
    Except SwishError IVideoContent × List Effect :=
  let path := "content/" ++ id
  match alookup w.content path with
  | none =>
      (.error (.resourceNotFound "VideoContent" "videoContent" id), [.firestoreGet path])
  | some contentData =>
      (.ok { id := id, assetID := contentData.assetID, playbackID := contentData.playbackID },
       [.firestoreGet path])

/-- Modelled from the spec: VideoDataService.getVideo (imported at source
line 4, module not under src/).  Per the spec it retrieves the video record
for an id, and non-existent records yield a not-found error. -/
def VideoDataService.getVideo (w : World) (id : String) :
    Except SwishError IVideo :=
  match alookup w.videos id with
  | none => .error (.resourceNotFound "Video" "video" id)
  | some video => .ok video

/-- Events a stream pair can emit while piping. -/
inductive StreamEvent
  | finish
  | error
deriving Repr, DecidableEq

/-- Settlement state of a promise. -/
inductive PromiseOutcome
  | resolved
  | rejected
  | pending
deriving Repr, DecidableEq

/-- promisePiper (source lines 36-46): pipes readStream into writeStream and
returns a promise with a single handler, on the finish event of the write
stream, that resolves it.  The reject callback is bound but never invoked.
Modelled as a function from the events the streams emit to the settlement
of the returned promise: it resolves exactly if finish is emitted. -/
def promisePiper (events : List StreamEvent) : PromiseOutcome :=
  if StreamEvent.finish ∈ events then PromiseOutcome.resolved else PromiseOutcome.pending

/-- Writing an object to the bucket at a path (createWriteStream plus the
pipe): the object is stored at the path with the given content type, not
public. -/
def bucketWrite (storage : List (String × StorageObject)) (path : String)
    (obj : StorageObject) : List (String × StorageObject) :=
  (path, obj) :: storage.filter (fun p => p.1 != path)

/-- storageObject.makePublic: flips the public flag of the object at the
path. -/
def bucketMakePublic (storage : List (String × StorageObject)) (path : String) :
    List (String × StorageObject) :=
  storage.map (fun p => if p.1 == path then (p.1, { p.2 with isPublic := true }) else p)

/-- uploadVideo (source lines 55-97): fetch the video from VideoDataService;
throw AuthorizationError unless context.auth.userID equals video.author;
then build the path masters/${userID}/${id}, pipe the file stream into the
bucket object (content type from mime), make the object public, and POST
the stored object URL to the mux transcoder with passthrough id. -/
def uploadVideo (w : World) (context : IServiceInvocationContext) (id : String)
    (fileStream : List Nat) (mime : String) :
    Except SwishError Unit × World × List Effect :=
  match alookup w.videos id with
  | none =>
      (.error (.resourceNotFound "Video" "video" id), w, [.videoServiceGet id])
  | some video =>
      if context.auth.userID ≠ video.author then
        (.error (.authorizationError "VideoContent" "upload video data"), w,
         [.videoServiceGet id])
      else
        let path := "masters/" ++ context.auth.userID ++ "/" ++ id
        let storedObject : StorageObject :=
          { contentType := mime, contents := fileStream, isPublic := false }
        let afterWrite : World :=
          { w with storage := bucketWrite w.storage path storedObject }
        let afterPublic : World :=
          { afterWrite with storage := bucketMakePublic afterWrite.storage path }
        (.ok (), afterPublic,
         [.videoServiceGet id,
          .storageWrite path mime,
          .makePublic path,
          .transcoderPost ("https://storage.googleapis.com/meteor-videos/" ++ path) id])

/-- deleteVideo (source lines 104-119): fetch the content record via
getVideo; delete the asset contentRecord.assetID from mux; then delete the
firestore document at the path given by the template literal content/id --
which contains no interpolation, so it is the constant string content/id. -/
def deleteVideo (w : World) (context : IServiceInvocationContext) (id : String) :
    Except SwishError Unit × World × List Effect :=
  match getVideo w id with
  | (.error e, tr) => (.error e, w, tr)
  | (.ok contentRecord, tr) =>
      let afterMux : World :=
        { w with muxAssets := w.muxAssets.filter (fun a => a != contentRecord.assetID) }
      let afterDoc : World :=
        { afterMux with content := afterMux.content.filter (fun p => p.1 != "content/id") }
      (.ok (), afterDoc,
       tr ++ [.muxDelete contentRecord.assetID, .firestoreDelete "content/id"])

/-- A channel document as returned by docSnap.data(): per the spec data
model, an owner and metadata. -/
structure Channel where
  owner : String
  metadata : String
deriving Repr, DecidableEq

/-- The state touched by getChannels: the channels collection of the
document store and the user ids known to the auth service
(admin.auth().getUser succeeds exactly on these). -/
structure FunctionsEnv where
  channels : List Channel
  authUsers : List String
deriving Repr, DecidableEq

/-- The context of a callable invocation: context.auth is present (with the
caller uid) or absent. -/
structure CallableContext where
  auth : Option String
deriving Repr, DecidableEq

/-- Error codes getChannels can throw as HttpsError. -/
inductive HttpsErrorCode
  | unauthenticated
  | invalidArgument
deriving Repr, DecidableEq

/-- getChannels (src/functions/src/functions/getChannels.ts): throw
unauthenticated if context.auth is absent; throw invalid-argument if
admin.auth().getUser(data.user) fails; otherwise return the documents of
the query channels.where(owner == user).limit(100).  The query is modelled
as filtering the collection by owner and taking at most 100 documents. -/
def getChannels (env : FunctionsEnv) (dataUser : String) (context : CallableContext) :
    Except (HttpsErrorCode × String) (List Channel) :=
  match context.auth with
  | none =>
      .error (.unauthenticated, "User must be authenticated to make this request")
  | some _ =>
      if dataUser ∈ env.authUsers then
        .ok ((env.channels.filter (fun c => c.owner == dataUser)).take 100)
      else
        .error (.invalidArgument, "User could not found")

/-- A concrete world used by witnesses and counterexamples: one content
record v1 (asset a1), its video record authored by alice, and the asset a1
present at mux. -/
def exWorld : World :=
  { content := [("content/v1", { assetID := "a1", playbackID := "p1" })],
    videos := [("v1", { author := "alice" })],
    storage := [],
    muxAssets := ["a1"] }

/-- An invocation context whose caller is alice, the author of v1. -/
def aliceCtx : IServiceInvocationContext := { auth := { userID := "alice" } }

/-- An invocation context whose caller is mallory, not the author of v1. -/
def malloryCtx : IServiceInvocationContext := { auth := { userID := "mallory" } }

/-- A concrete environment for getChannels: two channels and two known
users. -/
def exEnv : FunctionsEnv :=
  { channels := [{ owner := "alice", metadata := "m1" },
                 { owner := "bob", metadata := "m2" }],
    authUsers := ["alice", "bob"] }

theorem string_append_left_cancel (a b c : String) (h : a ++ b = a ++ c) : b = c := by
  have hd : (a ++ b).data = (a ++ c).data := by rw [h]
  rw [String.data_append, String.data_append] at hd
  exact String.ext (List.append_cancel_left hd)

theorem alookup_filter_ne {α : Type} (l : List (String × α)) (k key : String)
    (h : key ≠ k) :
    alookup (l.filter (fun p => p.1 != k)) key = alookup l key := by
  induction l with
  | nil => rfl
  | cons hd tl ih =>
      obtain ⟨k1, v⟩ := hd
      rw [List.filter_cons]
      by_cases hk : k1 = k
      · have hf : (((k1, v) : String × α).1 != k) = false := by simp [hk]
        rw [hf]
        have hkey : (k1 == key) = false := by
          refine beq_eq_false_iff_ne.mpr ?_
          rw [hk]
          exact fun he => h he.symm
        simp only [if_false, Bool.false_eq_true, reduceIte, ih, alookup, hkey]
      · have hf : (((k1, v) : String × α).1 != k) = true := by simp [hk]
        rw [hf]
        simp only [if_true, alookup, ih]

/-- C1: the claim says every state-mutating operation checks authorization
before mutating, the deleteVideo mutations included.  Counterexample:
deleteVideo performs no authorization check, so a caller (mallory) who is
not the author (alice) of video v1 nevertheless succeeds, the mux asset is
deleted and the firestore delete is issued. -/
theorem C1_counterexample :
    alookup exWorld.videos "v1" = some { author := "alice" } ∧
    malloryCtx.auth.userID ≠ "alice" ∧
    (deleteVideo exWorld malloryCtx "v1").1 = .ok () ∧
    Effect.muxDelete "a1" ∈ (deleteVideo exWorld malloryCtx "v1").2.2 ∧
    Effect.firestoreDelete "content/id" ∈ (deleteVideo exWorld malloryCtx "v1").2.2 ∧
    (deleteVideo exWorld malloryCtx "v1").2.1.muxAssets = [] := by decide

/-- C1 (amended): uploadVideo does enforce authorization before mutation (a
mutation effect appears in its trace only when the caller is the author of
the existing video); deleteVideo performs no authorization check at all. -/
theorem C1_upload_auth_before_mutation
    (w : World) (context : IServiceInvocationContext) (id : String)
    (fileStream : List Nat) (mime : String)
    (h : ∃ e, e ∈ (uploadVideo w context id fileStream mime).2.2 ∧ e.isMutation = true) :
    ∃ video, alookup w.videos id = some video ∧ context.auth.userID = video.author := by
  obtain ⟨e, hmem, hmut⟩ := h
  cases hv : alookup w.videos id with
  | none =>
      exfalso
      simp only [uploadVideo, hv] at hmem
      simp only [List.mem_singleton] at hmem
      subst hmem
      simp [Effect.isMutation] at hmut
  | some video =>
      by_cases ha : context.auth.userID = video.author
      · exact ⟨video, rfl, ha⟩
      · exfalso
        simp only [uploadVideo, hv, if_pos ha] at hmem
        simp only [List.mem_singleton] at hmem
        subst hmem
        simp [Effect.isMutation] at hmut

/-- C1 witness: for alice (the author) the upload does mutate, and the
theorem yields the authorizing video record. -/
theorem C1_upload_auth_witness :
    ∃ video, alookup exWorld.videos "v1" = some video ∧
      aliceCtx.auth.userID = video.author :=
  C1_upload_auth_before_mutation exWorld aliceCtx "v1" [] "video/mp4"
    ⟨Effect.storageWrite ("masters/" ++ "alice" ++ "/" ++ "v1") "video/mp4",
     by decide, by decide⟩

/-- C2: deleting video v1 succeeds and deletes the mux asset, but the
firestore document content/v1 is still present afterwards: the code deletes
the constant path content/id instead of content/${id}. -/
theorem C2_record_not_deleted :
    (deleteVideo exWorld aliceCtx "v1").1 = .ok () ∧
    (deleteVideo exWorld aliceCtx "v1").2.1.muxAssets = [] ∧
    alookup (deleteVideo exWorld aliceCtx "v1").2.1.content "content/v1" =
      some { assetID := "a1", playbackID := "p1" } := by decide

/-- C3: when the caller is not the author of an existing video, uploadVideo
fails with the authorization error, the state is unchanged, and the trace
holds only the video-service read: no storage write, no visibility change,
no transcoder call. -/
theorem C3_upload_unauthorized_rejected
    (w : World) (context : IServiceInvocationContext) (id : String)
    (fileStream : List Nat) (mime : String) (video : IVideo)
    (hv : alookup w.videos id = some video)
    (hne : context.auth.userID ≠ video.author) :
    uploadVideo w context id fileStream mime =
      (.error (.authorizationError "VideoContent" "upload video data"), w,
       [.videoServiceGet id]) := by
  simp only [uploadVideo, hv]
  rw [if_pos hne]

/-- C3 witness: mallory uploading v1 (authored by alice) is rejected with
no state change. -/
theorem C3_witness :
    uploadVideo exWorld malloryCtx "v1" [] "video/mp4" =
      (.error (.authorizationError "VideoContent" "upload video data"), exWorld,
       [.videoServiceGet "v1"]) :=
  C3_upload_unauthorized_rejected exWorld malloryCtx "v1" [] "video/mp4"
    { author := "alice" } (by decide) (by decide)

/-- C4: when no document exists at content/${id}, getVideo fails with
ResourceNotFoundError, and deleteVideo (which fetches first) fails the same
way with the state unchanged and no mutation issued. -/
theorem C4_not_found (w : World) (id : String)
    (h : alookup w.content ("content/" ++ id) = none) :
    (getVideo w id).1 = .error (.resourceNotFound "VideoContent" "videoContent" id) ∧
    ∀ context, deleteVideo w context id =
      (.error (.resourceNotFound "VideoContent" "videoContent" id), w,
       [.firestoreGet ("content/" ++ id)]) := by
  have hg : getVideo w id =
      (.error (.resourceNotFound "VideoContent" "videoContent" id),
       [.firestoreGet ("content/" ++ id)]) := by
    simp only [getVideo, h]
  exact ⟨by rw [hg], fun context => by simp only [deleteVideo, hg]⟩

/-- C4 witness: a missing id fails with not-found for both getVideo and
deleteVideo. -/
theorem C4_witness :
    (getVideo exWorld "missing").1 =
      .error (.resourceNotFound "VideoContent" "videoContent" "missing") ∧
    deleteVideo exWorld malloryCtx "missing" =
      (.error (.resourceNotFound "VideoContent" "videoContent" "missing"), exWorld,
       [.firestoreGet ("content/" ++ "missing")]) :=
  ⟨(C4_not_found exWorld "missing" (by decide)).1,
   (C4_not_found exWorld "missing" (by decide)).2 malloryCtx⟩

/-- C5: for an authenticated call naming an existing user, getChannels
returns at most 100 records, each a channel whose owner is the given
user. -/
theorem C5_getChannels_bounded_and_owned
    (env : FunctionsEnv) (dataUser : String) (context : CallableContext) (a : String)
    (hauth : context.auth = some a) (huser : dataUser ∈ env.authUsers) :
    ∃ channels, getChannels env dataUser context = .ok channels ∧
      channels.length ≤ 100 ∧ ∀ c ∈ channels, c.owner = dataUser := by
  refine ⟨(env.channels.filter (fun c => c.owner == dataUser)).take 100, ?_, ?_, ?_⟩
  · simp only [getChannels, hauth, if_pos huser]
  · exact List.length_take_le 100 _
  · intro c hc
    exact eq_of_beq (List.mem_filter.mp (List.mem_of_mem_take hc)).2

/-- C5 witness: alice queries her channels and gets exactly her one
channel. -/
theorem C5_witness :
    ∃ channels, getChannels exEnv "alice" { auth := some "alice" } = .ok channels ∧
      channels.length ≤ 100 ∧ ∀ c ∈ channels, c.owner = "alice" :=
  C5_getChannels_bounded_and_owned exEnv "alice" { auth := some "alice" } "alice"
    rfl (by decide)

/-- C6: for an authorized call (caller is the author of the existing
video), uploadVideo succeeds and its trace is exactly the video-service
read followed by the storage write, then the visibility change, then a
single transcoder POST referencing the stored object, in this order. -/
theorem C6_upload_sequence
    (w : World) (context : IServiceInvocationContext) (id : String)
    (fileStream : List Nat) (mime : String) (video : IVideo)
    (hv : alookup w.videos id = some video)
    (hauth : context.auth.userID = video.author) :
    (uploadVideo w context id fileStream mime).1 = .ok () ∧
    (uploadVideo w context id fileStream mime).2.2 =
      [.videoServiceGet id,
       .storageWrite ("masters/" ++ context.auth.userID ++ "/" ++ id) mime,
       .makePublic ("masters/" ++ context.auth.userID ++ "/" ++ id),
       .transcoderPost
         ("https://storage.googleapis.com/meteor-videos/" ++
           ("masters/" ++ context.auth.userID ++ "/" ++ id)) id] := by
  have hna : ¬context.auth.userID ≠ video.author := fun hc => hc hauth
  constructor
  · simp only [uploadVideo, hv, if_neg hna]
  · simp only [uploadVideo, hv, if_neg hna]

/-- C6 witness: alice uploads v1; the trace is the four steps in order. -/
theorem C6_witness :
    (uploadVideo exWorld aliceCtx "v1" [] "video/mp4").1 = .ok () ∧
    (uploadVideo exWorld aliceCtx "v1" [] "video/mp4").2.2 =
      [.videoServiceGet "v1",
       .storageWrite ("masters/" ++ "alice" ++ "/" ++ "v1") "video/mp4",
       .makePublic ("masters/" ++ "alice" ++ "/" ++ "v1"),
       .transcoderPost
         ("https://storage.googleapis.com/meteor-videos/" ++
           ("masters/" ++ "alice" ++ "/" ++ "v1")) "v1"] :=
  C6_upload_sequence exWorld aliceCtx "v1" [] "video/mp4" { author := "alice" }
    (by decide) rfl

/-- C7: the claim makes invalid-argument equivalent to a non-resolving user
identifier unconditionally.  Counterexample: an unauthenticated call naming
the unknown user ghost fails with unauthenticated, not invalid-argument,
although the user does not resolve. -/
theorem C7_counterexample :
    "ghost" ∉ exEnv.authUsers ∧
    getChannels exEnv "ghost" { auth := none } =
      .error (.unauthenticated, "User must be authenticated to make this request") := by
  decide

/-- C7 (amended): getChannels fails unauthenticated iff the call has no
authentication context; it fails invalid-argument iff the call is
authenticated and the user identifier does not resolve; and every failure
carries one of these two codes. -/
theorem C7_error_conditions
    (env : FunctionsEnv) (dataUser : String) (context : CallableContext) :
    (getChannels env dataUser context =
        .error (.unauthenticated, "User must be authenticated to make this request") ↔
      context.auth = none) ∧
    (getChannels env dataUser context =
        .error (.invalidArgument, "User could not found") ↔
      context.auth ≠ none ∧ dataUser ∉ env.authUsers) ∧
    ∀ code msg, getChannels env dataUser context = .error (code, msg) →
      code = HttpsErrorCode.unauthenticated ∨ code = HttpsErrorCode.invalidArgument := by
  cases hauth : context.auth with
  | none =>
      refine ⟨by simp [getChannels, hauth], by simp [getChannels, hauth], ?_⟩
      intro code msg herr
      simp only [getChannels, hauth, Except.error.injEq, Prod.mk.injEq] at herr
      exact Or.inl herr.1.symm
  | some a =>
      by_cases hu : dataUser ∈ env.authUsers
      · refine ⟨by simp [getChannels, hauth, hu], by simp [getChannels, hauth, hu], ?_⟩
        intro code msg herr
        simp only [getChannels, hauth, if_pos hu] at herr
        simp at herr
      · refine ⟨by simp [getChannels, hauth, hu], by simp [getChannels, hauth, hu], ?_⟩
        intro code msg herr
        simp only [getChannels, hauth, if_neg hu, Except.error.injEq, Prod.mk.injEq] at herr
        exact Or.inr herr.1.symm

/-- C7 witness: an authenticated call naming the unknown user ghost fails
with invalid-argument. -/
theorem C7_witness :
    getChannels exEnv "ghost" { auth := some "alice" } =
      .error (.invalidArgument, "User could not found") :=
  ((C7_error_conditions exEnv "ghost" { auth := some "alice" }).2.1).mpr (by decide)

/-- C8: the claim says the record returned by getVideo carries the four
fields id, assetID, playbackID and author.  Counterexample: the object
literal getVideo returns has only the keys id, assetID and playbackID;
author is absent, even for the existing record v1. -/
theorem C8_counterexample :
    (getVideo exWorld "v1").1 =
      .ok { id := "v1", assetID := "a1", playbackID := "p1" } ∧
    "author" ∉ getVideoReturnKeys := by decide

/-- C8 (amended): for every existing id, getVideo returns a record whose
keys are exactly id, assetID and playbackID (no author field), with id
equal to the requested id and the other two fields taken from the stored
document. -/
theorem C8_getVideo_fields (w : World) (id : String) (d : ContentData)
    (h : alookup w.content ("content/" ++ id) = some d) :
    (getVideo w id).1 =
      .ok { id := id, assetID := d.assetID, playbackID := d.playbackID } ∧
    getVideoReturnKeys = ["id", "assetID", "playbackID"] ∧
    "author" ∉ getVideoReturnKeys := by
  refine ⟨?_, rfl, by decide⟩
  simp only [getVideo, h]

/-- C8 witness: fetching v1 yields the three-field record with id v1. -/
theorem C8_witness :
    (getVideo exWorld "v1").1 =
      .ok { id := "v1", assetID := "a1", playbackID := "p1" } ∧
    getVideoReturnKeys = ["id", "assetID", "playbackID"] ∧
    "author" ∉ getVideoReturnKeys :=
  C8_getVideo_fields exWorld "v1" { assetID := "a1", playbackID := "p1" } (by decide)

/-- C9: the firestore delete issued by deleteVideo always targets the
constant path content/id, and for any id other than the literal string id
the content document at content/${id} is unchanged by deleteVideo. -/
theorem C9_delete_constant_path
    (w : World) (context : IServiceInvocationContext) (id : String)
    (hne : id ≠ "id") :
    (∀ p, Effect.firestoreDelete p ∈ (deleteVideo w context id).2.2 →
      p = "content/id") ∧
    alookup (deleteVideo w context id).2.1.content ("content/" ++ id) =
      alookup w.content ("content/" ++ id) := by
  have hpath : ("content/" ++ id : String) ≠ "content/id" := fun hc =>
    hne (string_append_left_cancel "content/" id "id" (hc.trans rfl))
  cases hg : alookup w.content ("content/" ++ id) with
  | none =>
      have hgv : getVideo w id =
          (.error (.resourceNotFound "VideoContent" "videoContent" id),
           [.firestoreGet ("content/" ++ id)]) := by
        simp only [getVideo, hg]
      constructor
      · intro p hp
        simp only [deleteVideo, hgv] at hp
        simp at hp
      · simp only [deleteVideo, hgv, hg]
  | some d =>
      have hgv : getVideo w id =
          (.ok { id := id, assetID := d.assetID, playbackID := d.playbackID },
           [.firestoreGet ("content/" ++ id)]) := by
        simp only [getVideo, hg]
      constructor
      · intro p hp
        simp only [deleteVideo, hgv] at hp
        simp at hp
        exact hp
      · simp only [deleteVideo, hgv]
        rw [alookup_filter_ne w.content "content/id" ("content/" ++ id) hpath]
        exact hg

/-- C9 witness: deleting v1 leaves the document content/v1 in place. -/
theorem C9_witness :
    alookup (deleteVideo exWorld malloryCtx "v1").2.1.content ("content/" ++ "v1") =
      alookup exWorld.content ("content/" ++ "v1") :=
  (C9_delete_constant_path exWorld malloryCtx "v1" (by decide)).2

/-- C10: the promise returned by promisePiper resolves exactly when the
write stream emits finish, and it never rejects: no error event can
produce a rejected outcome. -/
theorem C10_promisePiper_never_rejects (events : List StreamEvent) :
    promisePiper events ≠ PromiseOutcome.rejected ∧
    (promisePiper events = PromiseOutcome.resolved ↔ StreamEvent.finish ∈ events) := by
  by_cases h : StreamEvent.finish ∈ events
  · simp [promisePiper, h]
  · simp [promisePiper, h]

end Swish
